import Mathlib

/-!
Verification of the Home-Management-Hub repository.

The development shallowly embeds the persistence layer (`src/js/storage.js`),
the domain modules (`meals.js`, `tasks.js`, `shopping.js`, `planner.js`) and
the save-meal proxy endpoint (`server.js`) as executable Lean definitions and
proves the spec's testable properties about them.

Modelling conventions:
- The persisted localStorage document is `Option StoredDoc` (`none` = empty
  store / unparsable content; both fall back to defaults in the source).
  Stored sections are `Option`-valued because a stored JSON document can omit
  any section, and stored `settings` can omit any field.
- JavaScript object spread `{...a, ...b}` over string-keyed objects is
  `mergeObj` on association lists: keys of `a` in order with `b`'s value
  where `b` has the key, then keys of `b` not in `a`, in `b`'s order.
- ISO date strings `YYYY-MM-DD` are modelled as a `Date` structure; the
  JavaScript expression `d.setDate(d.getDate() + k)` adds exactly `k`
  calendar days, embedded as `addDays`.
- `generateId()` / `new Date().toISOString()` results are passed in as
  parameters (`gid`, `now`); no claim depends on their values.
-/

namespace HomeHub

/-! ## Calendar dates (for `calculateNextDueDate` in tasks.js) -/

structure Date where
  year : Nat
  month : Nat
  day : Nat
deriving DecidableEq, Repr

def isLeapYear (y : Nat) : Bool :=
  (y % 4 == 0 && y % 100 != 0) || y % 400 == 0

def daysInMonth (y m : Nat) : Nat :=
  if m == 2 then (if isLeapYear y then 29 else 28)
  else if m == 4 || m == 6 || m == 9 || m == 11 then 30
  else 31

def nextDay (d : Date) : Date :=
  if d.day < daysInMonth d.year d.month then { d with day := d.day + 1 }
  else if d.month < 12 then { year := d.year, month := d.month + 1, day := 1 }
  else { year := d.year + 1, month := 1, day := 1 }

def addDays (d : Date) : Nat → Date
  | 0 => d
  | n + 1 => nextDay (addDays d n)

/-! ## Entity records (data model of storage.js §3) -/

structure Meal where
  id : String
  title : String
  type : String
  dietary : List String
  mainIngredients : List String
  ingredients : List String
  favourite : Bool
  dateAdded : String
  lastMade : Option String
deriving DecidableEq, Repr

structure ShoppingItem where
  id : String
  name : String
  quantity : String
  category : String
  price : Int
  aisle : String
  checked : Bool
  addedDate : String
deriving DecidableEq, Repr

structure Task where
  id : String
  name : String
  frequency : String
  dueDate : Date
  completed : Bool
  lastCompleted : Option String
  createdDate : String
deriving DecidableEq, Repr

/-- Household items are stored in the `householdItems` section but no code in
the sources constrains their shape; they are modelled as an uninterpreted
payload. -/
structure HouseholdItem where
  payload : String
deriving DecidableEq, Repr

structure Settings where
  notificationsEnabled : Bool
  notifyMeals : Bool
  notifyCleaning : Bool
  notifyShopping : Bool
  lastExport : Option String
deriving DecidableEq, Repr

/-- A stored `settings` object: any field may be absent in stored JSON. -/
structure StoredSettings where
  notificationsEnabled : Option Bool
  notifyMeals : Option Bool
  notifyCleaning : Option Bool
  notifyShopping : Option Bool
  lastExport : Option (Option String)
deriving DecidableEq, Repr

def defaultSettings : Settings :=
  { notificationsEnabled := false
    notifyMeals := true
    notifyCleaning := true
    notifyShopping := true
    lastExport := none }

def emptyStoredSettings : StoredSettings :=
  { notificationsEnabled := none, notifyMeals := none, notifyCleaning := none
    notifyShopping := none, lastExport := none }

/-- Spread `{...defaultData.settings, ...data.settings}`: stored fields override the
defaults, absent fields are backfilled. -/
def mergeSettings (s : StoredSettings) : Settings :=
  { notificationsEnabled := s.notificationsEnabled.getD defaultSettings.notificationsEnabled
    notifyMeals := s.notifyMeals.getD defaultSettings.notifyMeals
    notifyCleaning := s.notifyCleaning.getD defaultSettings.notifyCleaning
    notifyShopping := s.notifyShopping.getD defaultSettings.notifyShopping
    lastExport := s.lastExport.getD defaultSettings.lastExport }

/-- A full settings object viewed as a stored one (all fields present), as
produced by `JSON.stringify` of a loaded document. -/
def settingsToStored (s : Settings) : StoredSettings :=
  { notificationsEnabled := some s.notificationsEnabled
    notifyMeals := some s.notifyMeals
    notifyCleaning := some s.notifyCleaning
    notifyShopping := some s.notifyShopping
    lastExport := some s.lastExport }

/-! ## Weekly plan objects

`weeklyPlan` is a JavaScript object mapping day-name keys to lists of meal
ids.  It is modelled as an association list in object key order; `lookupWP`
is property access, `setWP` is property assignment (overwrite in place, or
append a new key), `mergeObj` is object spread. -/

abbrev WeeklyPlan : Type := List (String × List String)

def lookupWP : WeeklyPlan → String → Option (List String)
  | [], _ => none
  | e :: t, k => if e.1 == k then some e.2 else lookupWP t k

def hasKey (w : WeeklyPlan) (k : String) : Bool :=
  w.any (fun e => e.1 == k)

/-- Property assignment `plan[day] = l`: overwrite the first entry with that
key, or append the key at the end of the object if absent. -/
def setWP (w : WeeklyPlan) (k : String) (l : List String) : WeeklyPlan :=
  match w with
  | [] => [(k, l)]
  | e :: t => if e.1 == k then (k, l) :: t else e :: setWP t k l

/-- Object spread `{...b, ...u}`: base keys in order, values overridden by
`u` where present, then keys of `u` that are not in `b`, in `u`'s order. -/
def mergeObj (b u : WeeklyPlan) : WeeklyPlan :=
  b.map (fun e => (e.1, (lookupWP u e.1).getD e.2))
    ++ u.filter (fun e => !(hasKey b e.1))

/-- Constant `DAYS` from planner.js. -/
def DAYS : List String :=
  ["Monday", "Tuesday", "Wednesday", "Thursday", "Friday", "Saturday", "Sunday"]

def defaultWeeklyPlan : WeeklyPlan :=
  [("Monday", []), ("Tuesday", []), ("Wednesday", []), ("Thursday", []),
   ("Friday", []), ("Saturday", []), ("Sunday", [])]

/-! ## The persisted document (storage.js) -/

/-- The full in-memory document returned by `loadData` (every section
present). -/
structure Doc where
  meals : List Meal
  weeklyPlan : WeeklyPlan
  shoppingList : List ShoppingItem
  householdItems : List HouseholdItem
  cleaningTasks : List Task
  maintenanceTasks : List Task
  settings : Settings
deriving DecidableEq, Repr

/-- A stored JSON document: any section may be absent. -/
structure StoredDoc where
  meals : Option (List Meal)
  weeklyPlan : Option WeeklyPlan
  shoppingList : Option (List ShoppingItem)
  householdItems : Option (List HouseholdItem)
  cleaningTasks : Option (List Task)
  maintenanceTasks : Option (List Task)
  settings : Option StoredSettings
deriving DecidableEq, Repr

/-- Constant `defaultData` from storage.js. -/
def defaultData : Doc :=
  { meals := []
    weeklyPlan := defaultWeeklyPlan
    shoppingList := []
    householdItems := []
    cleaningTasks := []
    maintenanceTasks := []
    settings := defaultSettings }

def emptyStoredDoc : StoredDoc :=
  { meals := none, weeklyPlan := none, shoppingList := none
    householdItems := none, cleaningTasks := none, maintenanceTasks := none
    settings := none }

/-- Function `loadData()`: `none` covers both an empty store and a parse error, which
fall back to `{...defaultData}`; otherwise the stored document is merged
with the defaults:
`{...defaultData, ...data, weeklyPlan: {...defaultData.weeklyPlan,
...data.weeklyPlan}, settings: {...defaultData.settings, ...data.settings}}`. -/
def loadData : Option StoredDoc → Doc
  | none => defaultData
  | some d =>
    { meals := d.meals.getD defaultData.meals
      weeklyPlan := mergeObj defaultData.weeklyPlan (d.weeklyPlan.getD [])
      shoppingList := d.shoppingList.getD defaultData.shoppingList
      householdItems := d.householdItems.getD defaultData.householdItems
      cleaningTasks := d.cleaningTasks.getD defaultData.cleaningTasks
      maintenanceTasks := d.maintenanceTasks.getD defaultData.maintenanceTasks
      settings := mergeSettings (d.settings.getD emptyStoredSettings) }

/-- Result of `JSON.stringify` of a full document: every section present. -/
def docToStored (d : Doc) : StoredDoc :=
  { meals := some d.meals
    weeklyPlan := some d.weeklyPlan
    shoppingList := some d.shoppingList
    householdItems := some d.householdItems
    cleaningTasks := some d.cleaningTasks
    maintenanceTasks := some d.maintenanceTasks
    settings := some (settingsToStored d.settings) }

/-- The seven section names of the document. -/
inductive Section where
  | meals | weeklyPlan | shoppingList | householdItems
  | cleaningTasks | maintenanceTasks | settings
deriving DecidableEq, Repr

/-- The type of the value a caller passes to `updateData` for each section
(for `weeklyPlan` and `settings` this may be a partial object). -/
@[reducible] def SectionValue : Section → Type
  | .meals => List Meal
  | .weeklyPlan => WeeklyPlan
  | .shoppingList => List ShoppingItem
  | .householdItems => List HouseholdItem
  | .cleaningTasks => List Task
  | .maintenanceTasks => List Task
  | .settings => StoredSettings

/-- The type `getData` returns for each section (sections of a loaded,
fully-merged document). -/
@[reducible] def LoadedValue : Section → Type
  | .meals => List Meal
  | .weeklyPlan => WeeklyPlan
  | .shoppingList => List ShoppingItem
  | .householdItems => List HouseholdItem
  | .cleaningTasks => List Task
  | .maintenanceTasks => List Task
  | .settings => Settings

def getSection (d : Doc) : (s : Section) → LoadedValue s
  | .meals => d.meals
  | .weeklyPlan => d.weeklyPlan
  | .shoppingList => d.shoppingList
  | .householdItems => d.householdItems
  | .cleaningTasks => d.cleaningTasks
  | .maintenanceTasks => d.maintenanceTasks
  | .settings => d.settings

def setStoredSection (st : StoredDoc) : (s : Section) → SectionValue s → StoredDoc
  | .meals, v => { st with meals := some v }
  | .weeklyPlan, v => { st with weeklyPlan := some v }
  | .shoppingList, v => { st with shoppingList := some v }
  | .householdItems, v => { st with householdItems := some v }
  | .cleaningTasks, v => { st with cleaningTasks := some v }
  | .maintenanceTasks, v => { st with maintenanceTasks := some v }
  | .settings, v => { st with settings := some v }

/-- Function `getData(section)`: `loadData()[section]`. -/
def getData (s : Section) (store : Option StoredDoc) : LoadedValue s :=
  getSection (loadData store) s

/-- Function `updateData(section, value)`: `data = loadData(); data[section] = value;
saveData(data)` — the returned document is what `saveData` persists. -/
def updateData (s : Section) (v : SectionValue s) (store : Option StoredDoc) : StoredDoc :=
  setStoredSection (docToStored (loadData store)) s v

/-! ## importData (storage.js)

`importData` parses the uploaded file and runs
`if (!importedData || typeof importedData !== 'object') throw ...` before
writing.  For a parsed JSON value, `!x` rejects `null`, `false`, `0` and
`""`, and `typeof x !== 'object'` rejects every boolean, number and string;
arrays and objects pass both tests (`typeof [] === 'object'`, and `[]` and
`{}` are truthy).  `ImportValue` classifies the parsed value at exactly that
granularity; an accepted array contributes only numeric-string keys to the
spread, none of which is a section name, so at the section level it merges
like an object with no sections present (its elements cannot influence the
result and are not carried). -/

inductive ImportValue where
  | null
  | bool (b : Bool)
  | num (n : Int)
  | str (s : String)
  | arr
  | obj (d : StoredDoc)
deriving DecidableEq, Repr

/-- Whether the parsed value is a JSON object (the shape the spec says is
required). -/
def ImportValue.isObj : ImportValue → Bool
  | .obj _ => true
  | _ => false

/-- The merge expression written out inside `importData` (the source
duplicates `loadData`'s merge rather than calling it):
`{...defaultData, ...importedData, weeklyPlan: {...}, settings: {...}}`. -/
def importMerge (d : StoredDoc) : Doc :=
  { meals := d.meals.getD defaultData.meals
    weeklyPlan := mergeObj defaultData.weeklyPlan (d.weeklyPlan.getD [])
    shoppingList := d.shoppingList.getD defaultData.shoppingList
    householdItems := d.householdItems.getD defaultData.householdItems
    cleaningTasks := d.cleaningTasks.getD defaultData.cleaningTasks
    maintenanceTasks := d.maintenanceTasks.getD defaultData.maintenanceTasks
    settings := mergeSettings (d.settings.getD emptyStoredSettings) }

/-- Function `importData`: `none` means the input was rejected before any write;
`some doc` means `saveData(doc)` was reached with the merged document. -/
def importData : ImportValue → Option Doc
  | .null => none
  | .bool _ => none
  | .num _ => none
  | .str _ => none
  | .arr => some (importMerge emptyStoredDoc)
  | .obj d => some (importMerge d)

/-! ## meals.js -/

/-- Generic helper for the in-place mutation pattern `const x =
list.find(...); x.f = ...; updateData(...)`: replace the first element
matching `p` (the object `find` returned) by its mutated version. -/
def replaceFirstBy (p : α → Bool) (x : α) : List α → List α
  | [] => []
  | a :: t => if p a then x :: t else a :: replaceFirstBy p x t

/-- Caller input to `addMeal`.  The form always supplies the domain fields;
the lifecycle fields (`id`, `dateAdded`, `lastMade`) may or may not be
present in the spread object, so they are `Option`s. -/
structure MealInput where
  title : String
  type : String
  dietary : List String
  mainIngredients : List String
  ingredients : List String
  favourite : Bool
  id : Option String
  dateAdded : Option String
  lastMade : Option (Option String)
deriving DecidableEq, Repr

/-- Function `addMeal(mealData)`: builds `{id: generateId(), ...mealData, dateAdded:
now, lastMade: null}`, appends and persists; returns (new list, created
record).  `id` is spread-overridable (listed before `...mealData`); `dateAdded`
and `lastMade` are assigned after the spread and always win. -/
def addMeal (gid now : String) (meals : List Meal) (inp : MealInput) : List Meal × Meal :=
  let m : Meal :=
    { id := inp.id.getD gid
      title := inp.title
      type := inp.type
      dietary := inp.dietary
      mainIngredients := inp.mainIngredients
      ingredients := inp.ingredients
      favourite := inp.favourite
      dateAdded := now
      lastMade := none }
  (meals ++ [m], m)

/-- Partial update object for `updateMeal` (shallow merge
`{...meals[index], ...mealData}`). -/
structure MealUpdate where
  id : Option String
  title : Option String
  type : Option String
  dietary : Option (List String)
  mainIngredients : Option (List String)
  ingredients : Option (List String)
  favourite : Option Bool
  dateAdded : Option String
  lastMade : Option (Option String)
deriving DecidableEq, Repr

def applyMealUpdate (m : Meal) (u : MealUpdate) : Meal :=
  { id := u.id.getD m.id
    title := u.title.getD m.title
    type := u.type.getD m.type
    dietary := u.dietary.getD m.dietary
    mainIngredients := u.mainIngredients.getD m.mainIngredients
    ingredients := u.ingredients.getD m.ingredients
    favourite := u.favourite.getD m.favourite
    dateAdded := u.dateAdded.getD m.dateAdded
    lastMade := u.lastMade.getD m.lastMade }

/-- Function `updateMeal(mealId, mealData)`: locate by id, shallow-merge, persist,
return the updated record; on not-found return `null` without saving.  The
first component is `none` exactly when no `updateData` call happened. -/
def updateMeal (meals : List Meal) (mealId : String) (u : MealUpdate) :
    Option (List Meal) × Option Meal :=
  match meals.find? (fun m => m.id == mealId) with
  | none => (none, none)
  | some m =>
    let m' := applyMealUpdate m u
    (some (replaceFirstBy (fun x => x.id == mealId) m' meals), some m')

/-- JavaScript truthiness of an optional string filter value (`undefined`
and `''` are falsy). -/
def truthyStr : Option String → Bool
  | none => false
  | some s => !(s == "")

/-- JavaScript truthiness of an optional array filter value (arrays are
always truthy, even `[]`). -/
def truthyList : Option (List String) → Bool
  | none => false
  | some _ => true

/-- JavaScript `String.prototype.toLowerCase()`, character by character (the strings
the claims touch are ASCII, where this agrees with JavaScript).  Defined on
the character list so that it evaluates inside the kernel. -/
def lowerStr (s : String) : String :=
  String.mk (s.toList.map Char.toLower)

def isPrefixChars : List Char → List Char → Bool
  | [], _ => true
  | _ :: _, [] => false
  | a :: t, b :: u => a == b && isPrefixChars t u

/-- JavaScript `String.prototype.includes`, on character lists. -/
def isInfixChars (needle : List Char) : List Char → Bool
  | [] => needle.isEmpty
  | c :: t => isPrefixChars needle (c :: t) || isInfixChars needle t

def containsStr (hay needle : String) : Bool :=
  isInfixChars needle.toList hay.toList

structure MealFilters where
  type : Option String
  dietary : Option (List String)
  ingredient : Option String
  search : Option String
deriving DecidableEq, Repr

/-- The predicate inside `filterMeals`' `meals.filter(...)`, clause by
clause. -/
def mealPasses (f : MealFilters) (m : Meal) : Bool :=
  if truthyStr f.type && !(f.type == some "all") && !(some m.type == f.type) then
    false
  else if truthyList f.dietary
      && !((f.dietary.getD []).all (fun d => m.dietary.contains d)) then
    false
  else if truthyStr f.ingredient
      && !(m.mainIngredients.any (fun i =>
            containsStr (lowerStr i) (lowerStr (f.ingredient.getD "")))) then
    false
  else if truthyStr f.search
      && !(containsStr
            (lowerStr (m.title ++ " " ++ String.intercalate " " m.ingredients))
            (lowerStr (f.search.getD ""))) then
    false
  else
    true

def filterMeals (f : MealFilters) (meals : List Meal) : List Meal :=
  meals.filter (mealPasses f)

/-! ## tasks.js -/

structure TaskInput where
  name : String
  frequency : String
  dueDate : Date
  id : Option String
  completed : Option Bool
  lastCompleted : Option (Option String)
  createdDate : Option String
deriving DecidableEq, Repr

/-- Function `addTask(taskData)`: `{id: generateId(), ...taskData, completed: false,
lastCompleted: null, createdDate: now}` appended and persisted. -/
def addTask (gid now : String) (tasks : List Task) (inp : TaskInput) : List Task × Task :=
  let t : Task :=
    { id := inp.id.getD gid
      name := inp.name
      frequency := inp.frequency
      dueDate := inp.dueDate
      completed := false
      lastCompleted := none
      createdDate := now }
  (tasks ++ [t], t)

/-- The day-offset table `freq` inside `calculateNextDueDate`, with the
`|| 7` fallback for unknown frequencies. -/
def freqOffset (frequency : String) : Nat :=
  if frequency == "daily" then 1
  else if frequency == "weekly" then 7
  else if frequency == "fortnightly" then 14
  else if frequency == "monthly" then 30
  else if frequency == "quarterly" then 90
  else if frequency == "yearly" then 365
  else 7

/-- Function `calculateNextDueDate(currentDate, frequency)`:
`date.setDate(date.getDate() + (freq[frequency] || 7))` adds exactly that
many calendar days to the current due date. -/
def calculateNextDueDate (currentDate : Date) (frequency : String) : Date :=
  addDays currentDate (freqOffset frequency)

/-- The body of the `if (task)` branch in `toggleTaskComplete`, applied to
the task that was found. -/
def completeTask (now : String) (t : Task) : Task :=
  let t1 := { t with completed := !t.completed }
  if t1.completed then
    let t2 := { t1 with lastCompleted := some now }
    if !(t2.frequency == "once") then
      { t2 with dueDate := calculateNextDueDate t2.dueDate t2.frequency
                completed := false }
    else t2
  else t1

/-- Function `toggleTaskComplete(taskId)`: find by id, mutate in place, persist,
return the task; on not-found return `null` without saving.  The first
component is `none` exactly when no `updateData` call happened. -/
def toggleTaskComplete (now : String) (tasks : List Task) (taskId : String) :
    Option (List Task) × Option Task :=
  match tasks.find? (fun t => t.id == taskId) with
  | none => (none, none)
  | some t =>
    let t' := completeTask now t
    (some (replaceFirstBy (fun x => x.id == taskId) t' tasks), some t')

/-! ## shopping.js -/

structure ItemInput where
  name : String
  quantity : String
  category : String
  price : Int
  aisle : String
  id : Option String
  checked : Option Bool
  addedDate : Option String
deriving DecidableEq, Repr

/-- Function `addShoppingItem(itemData)`: `{id: generateId(), ...itemData, checked:
false, addedDate: now}` appended and persisted. -/
def addShoppingItem (gid now : String) (list : List ShoppingItem) (inp : ItemInput) :
    List ShoppingItem × ShoppingItem :=
  let it : ShoppingItem :=
    { id := inp.id.getD gid
      name := inp.name
      quantity := inp.quantity
      category := inp.category
      price := inp.price
      aisle := inp.aisle
      checked := false
      addedDate := now }
  (list ++ [it], it)

/-- Function `toggleItemChecked(itemId)`: find by id, flip `checked`, persist, return
the new `checked`; on not-found return `false` without saving. -/
def toggleItemChecked (list : List ShoppingItem) (itemId : String) :
    Option (List ShoppingItem) × Bool :=
  match list.find? (fun i => i.id == itemId) with
  | none => (none, false)
  | some i =>
    let i' := { i with checked := !i.checked }
    (some (replaceFirstBy (fun x => x.id == itemId) i' list), i'.checked)

/-- The ingredient collection loop of `generateFromMealPlan`:
`Object.values(weeklyPlan)` in key order, each planned meal id resolved via
`meals.find`, ingredients appended in order. -/
def collectPlannedIngredients (plan : WeeklyPlan) (meals : List Meal) : List String :=
  plan.foldl
    (fun acc e =>
      e.2.foldl
        (fun acc2 mid =>
          match meals.find? (fun m => m.id == mid) with
          | some meal => acc2 ++ meal.ingredients
          | none => acc2)
        acc)
    []

/-- The JavaScript `Set`: keeps the first occurrence of each element, in
insertion order. -/
def dedupFirst (seen : List String) : List String → List String
  | [] => []
  | x :: t => if seen.contains x then dedupFirst seen t
              else x :: dedupFirst (x :: seen) t

/-- Function `generateFromMealPlan()`: collects the deduplicated planned ingredients,
then appends (via `addShoppingItem`) every ingredient with no
case-insensitive name match in the shopping list as read at the start of the
run; returns the persisted list and the `added` counter.  Each
`addShoppingItem` call appends to the list stored so far, and the membership
check uses the `currentList` snapshot, so the final list is the snapshot
followed by the new items in ingredient order. -/
def generateFromMealPlan (gid : Nat → String) (now : String)
    (plan : WeeklyPlan) (meals : List Meal) (currentList : List ShoppingItem) :
    List ShoppingItem × Nat :=
  let ings := dedupFirst [] (collectPlannedIngredients plan meals)
  let toAdd := ings.filter (fun ing =>
    !(currentList.any (fun item => lowerStr item.name == lowerStr ing)))
  let newItems := toAdd.enum.map (fun p =>
    (addShoppingItem (gid p.1) now []
      { name := p.2, quantity := "1", category := "food", price := 0,
        aisle := "", id := none, checked := none, addedDate := none }).2)
  (currentList ++ newItems, toAdd.length)

/-! ## planner.js -/

/-- Function `addMealToDay(day, mealId)`: creates the day's list if absent, refuses
(returns `false`, saves nothing) when the id is already present, otherwise
pushes and persists.  Returns the stored plan and the success flag. -/
def addMealToDay (plan : WeeklyPlan) (day mealId : String) : WeeklyPlan × Bool :=
  match lookupWP plan day with
  | none => (setWP plan day [mealId], true)
  | some l =>
    if l.contains mealId then (plan, false)
    else (setWP plan day (l ++ [mealId]), true)

/-- Function `removeMealFromDay(day, mealId)`: filters the id out of the day's list
when the day key exists. -/
def removeMealFromDay (plan : WeeklyPlan) (day mealId : String) : WeeklyPlan × Bool :=
  match lookupWP plan day with
  | none => (plan, false)
  | some l => (setWP plan day (l.filter (fun i => !(i == mealId))), true)

/-- Function `clearDay(day)`: `plan[day] = []`. -/
def clearDay (plan : WeeklyPlan) (day : String) : WeeklyPlan :=
  setWP plan day []

/-- Function `clearWeek()`: a fresh object with the seven `DAYS` keys, each empty. -/
def clearWeek : WeeklyPlan :=
  DAYS.map (fun d => (d, []))

/-! ## server.js (save-meal proxy) -/

/-- Class `\w` of the JavaScript regex engine: ASCII letters, digits and
underscore. -/
def isWordChar (c : Char) : Bool :=
  c.isAlpha || c.isDigit || c == '_'

/-- First `replace`: each non-word character becomes a hyphen... -/
def dashify (c : Char) : Char :=
  if isWordChar c then c else '-'

/-- Run collapsing: `/[^\w]+/g` maps each whole run to a single hyphen, i.e.
consecutive hyphens collapse. -/
def squeezeDashes : List Char → List Char
  | [] => []
  | [c] => [c]
  | a :: b :: t =>
    if a == '-' && b == '-' then squeezeDashes (b :: t)
    else a :: squeezeDashes (b :: t)

/-- Second `replace`: `/(^-+|-+$)/g` strips leading and trailing hyphen
runs. -/
def trimDashes (l : List Char) : List Char :=
  ((l.dropWhile (fun c => c == '-')).reverse.dropWhile (fun c => c == '-')).reverse

/-- Function `slugify(text)`: lowercase, collapse non-word runs to single hyphens,
trim edge hyphens, append `".json"`. -/
def slugify (text : String) : String :=
  String.mk (trimDashes (squeezeDashes (text.toList.map (fun c => dashify c.toLower))))
    ++ ".json"

/-- The `filePath` computed by `POST /api/save-meal`:
`meals/${meal.type.toLowerCase()}/${slugify(meal.title)}`. -/
def savedMealPath (mealType mealTitle : String) : String :=
  "meals/" ++ lowerStr mealType ++ "/" ++ slugify mealTitle

/-! ## Helper lemmas about object lookup, spread merge and assignment -/

theorem lookupWP_append (xs ys : WeeklyPlan) (k : String) :
    lookupWP (xs ++ ys) k = (lookupWP xs k).or (lookupWP ys k) := by
  induction xs with
  | nil => rfl
  | cons e t ih =>
    cases h : e.1 == k <;> simp [lookupWP, h, ih]

theorem hasKey_eq_isSome (w : WeeklyPlan) (k : String) :
    hasKey w k = (lookupWP w k).isSome := by
  induction w with
  | nil => rfl
  | cons e t ih =>
    cases h : e.1 == k
    · simp [hasKey, lookupWP, h]
      simpa [hasKey] using ih
    · simp [hasKey, lookupWP, h]

theorem lookupWP_mapMerge (b u : WeeklyPlan) (k : String) :
    lookupWP (b.map (fun e => (e.1, (lookupWP u e.1).getD e.2))) k
      = (lookupWP b k).map (fun bv => (lookupWP u k).getD bv) := by
  induction b with
  | nil => rfl
  | cons e t ih =>
    cases h : e.1 == k
    · simp [lookupWP, h, ih]
    · have hk : e.1 = k := by simpa using h
      subst hk
      simp [lookupWP, h]

theorem lookupWP_filter_of_base_none (b u : WeeklyPlan) (k : String)
    (h : lookupWP b k = none) :
    lookupWP (u.filter (fun e => !(hasKey b e.1))) k = lookupWP u k := by
  induction u with
  | nil => rfl
  | cons e t ih =>
    cases hek : e.1 == k
    · cases hkeep : !(hasKey b e.1) <;>
        simp [List.filter_cons, hkeep, lookupWP, hek, ih]
    · have hk : e.1 = k := by simpa using hek
      have hb : hasKey b e.1 = false := by
        rw [hk, hasKey_eq_isSome, h]; rfl
      simp [List.filter_cons, hb, lookupWP, hek]

theorem lookupWP_filter_of_base_some (b u : WeeklyPlan) (k : String)
    (h : (lookupWP b k).isSome) :
    lookupWP (u.filter (fun e => !(hasKey b e.1))) k = none := by
  induction u with
  | nil => rfl
  | cons e t ih =>
    cases hek : e.1 == k
    · cases hkeep : !(hasKey b e.1) <;>
        simp [List.filter_cons, hkeep, lookupWP, hek, ih]
    · have hk : e.1 = k := by simpa using hek
      have hb : hasKey b e.1 = true := by rw [hk, hasKey_eq_isSome, h]
      simp [List.filter_cons, hb]
      exact ih

/-- The characterizing property of object spread: a key takes the updating
object's value when it has the key, and the base value otherwise. -/
theorem lookupWP_mergeObj (b u : WeeklyPlan) (k : String) :
    lookupWP (mergeObj b u) k =
      match lookupWP b k with
      | some bv => some ((lookupWP u k).getD bv)
      | none => lookupWP u k := by
  unfold mergeObj
  rw [lookupWP_append, lookupWP_mapMerge]
  cases h : lookupWP b k with
  | none => simp [lookupWP_filter_of_base_none b u k h]
  | some bv => simp [lookupWP_filter_of_base_some b u k (by simp [h])]

theorem lookupWP_mergeObj_of_upd (b u : WeeklyPlan) (k : String) (l : List String)
    (h : lookupWP u k = some l) :
    lookupWP (mergeObj b u) k = some l := by
  rw [lookupWP_mergeObj]
  cases hb : lookupWP b k <;> simp [h]

theorem hasKey_mergeObj_of_base (b u : WeeklyPlan) (k : String)
    (h : hasKey b k = true) :
    hasKey (mergeObj b u) k = true := by
  rw [hasKey_eq_isSome] at h ⊢
  rw [lookupWP_mergeObj]
  cases hb : lookupWP b k
  · rw [hb] at h; simp at h
  · simp

theorem lookupWP_setWP_self (w : WeeklyPlan) (k : String) (l : List String) :
    lookupWP (setWP w k l) k = some l := by
  induction w with
  | nil => simp [setWP, lookupWP]
  | cons e t ih =>
    cases h : e.1 == k
    · simp [setWP, h, lookupWP, ih]
    · simp [setWP, h, lookupWP]

theorem mem_DAYS_of_lookup_default (k : String) (bv : List String)
    (h : lookupWP defaultWeeklyPlan k = some bv) : k ∈ DAYS := by
  have hk : hasKey defaultWeeklyPlan k = true := by
    rw [hasKey_eq_isSome, h]; rfl
  simp [hasKey, defaultWeeklyPlan] at hk
  rcases hk with h | h | h | h | h | h | h <;> subst h <;> decide

/-! ## Helper lemmas about the Set model of `generateFromMealPlan` -/

theorem mem_dedupFirst_not_seen (seen l : List String) (x : String)
    (h : x ∈ dedupFirst seen l) : x ∉ seen := by
  induction l generalizing seen with
  | nil => simp [dedupFirst] at h
  | cons a t ih =>
    by_cases ha : a ∈ seen
    · rw [dedupFirst, if_pos (by simp [List.contains, ha])] at h
      exact ih seen h
    · rw [dedupFirst, if_neg (by simp [List.contains, ha])] at h
      rcases List.mem_cons.mp h with rfl | h
      · exact ha
      · intro hx
        exact ih (a :: seen) h (List.mem_cons_of_mem a hx)

theorem dedupFirst_nodup (seen l : List String) : (dedupFirst seen l).Nodup := by
  induction l generalizing seen with
  | nil => exact List.nodup_nil
  | cons a t ih =>
    by_cases ha : a ∈ seen
    · rw [dedupFirst, if_pos (by simp [List.contains, ha])]
      exact ih seen
    · rw [dedupFirst, if_neg (by simp [List.contains, ha])]
      refine List.nodup_cons.mpr ⟨fun hmem => ?_, ih (a :: seen)⟩
      exact (mem_dedupFirst_not_seen _ _ _ hmem) (List.mem_cons_self a seen)

/-! ## Claim C1 -/

/-- C1 (counterexample): `set('weeklyPlan', v)` followed by
`get('weeklyPlan')` does NOT return a value equal to `v` when `v` omits day
keys that the defaults contain — the re-merge on read backfills the missing
six days, so the result is a different object. -/
theorem c1_set_get_not_identity :
    getData .weeklyPlan (some (updateData .weeklyPlan [("Monday", ["m1"])] none))
      ≠ [("Monday", ["m1"])] := by
  decide

/-- C1 (amended): for the five plain sections (`meals`, `shoppingList`,
`householdItems`, `cleaningTasks`, `maintenanceTasks`) `get` after `set`
returns the written value exactly; for `weeklyPlan` and `settings` it
returns the written value re-merged over that section's defaults — every
key/field the written value supplies keeps its value and omitted default
keys are backfilled, so the round trip is the identity as a key-value map
exactly when the written value supplies all default keys. -/
theorem c1_set_get_roundtrip (st : Option StoredDoc) :
    (∀ v : List Meal, getData .meals (some (updateData .meals v st)) = v) ∧
    (∀ v : List ShoppingItem,
      getData .shoppingList (some (updateData .shoppingList v st)) = v) ∧
    (∀ v : List HouseholdItem,
      getData .householdItems (some (updateData .householdItems v st)) = v) ∧
    (∀ v : List Task,
      getData .cleaningTasks (some (updateData .cleaningTasks v st)) = v) ∧
    (∀ v : List Task,
      getData .maintenanceTasks (some (updateData .maintenanceTasks v st)) = v) ∧
    (∀ v : WeeklyPlan,
      getData .weeklyPlan (some (updateData .weeklyPlan v st))
        = mergeObj defaultWeeklyPlan v) ∧
    (∀ (v : WeeklyPlan) (k : String) (l : List String), lookupWP v k = some l →
      lookupWP (getData .weeklyPlan (some (updateData .weeklyPlan v st))) k = some l) ∧
    (∀ v : WeeklyPlan, DAYS.all (fun d => (lookupWP v d).isSome) = true →
      ∀ k : String,
        lookupWP (getData .weeklyPlan (some (updateData .weeklyPlan v st))) k
          = lookupWP v k) ∧
    (∀ v : StoredSettings,
      getData .settings (some (updateData .settings v st)) = mergeSettings v) ∧
    (∀ s : Settings, mergeSettings (settingsToStored s) = s) := by
  refine ⟨fun v => rfl, fun v => rfl, fun v => rfl, fun v => rfl, fun v => rfl,
    fun v => rfl, ?_, ?_, fun v => rfl, fun s => rfl⟩
  · intro v k l h
    show lookupWP (mergeObj defaultWeeklyPlan v) k = some l
    exact lookupWP_mergeObj_of_upd _ _ _ _ h
  · intro v hcov k
    show lookupWP (mergeObj defaultWeeklyPlan v) k = lookupWP v k
    rw [lookupWP_mergeObj]
    cases hb : lookupWP defaultWeeklyPlan k with
    | none => rfl
    | some bv =>
      have hk : k ∈ DAYS := mem_DAYS_of_lookup_default k bv hb
      have hs : (lookupWP v k).isSome := by
        simpa using List.all_eq_true.mp hcov k hk
      obtain ⟨l, hl⟩ := Option.isSome_iff_exists.mp hs
      simp [hl]

/-- A weekly-plan value that supplies every default day key. -/
def c1FullPlan : WeeklyPlan :=
  [("Monday", ["m1"]), ("Tuesday", []), ("Wednesday", []), ("Thursday", []),
   ("Friday", []), ("Saturday", []), ("Sunday", ["m2"])]

theorem c1_set_get_roundtrip_witness :
    lookupWP (getData .weeklyPlan
        (some (updateData .weeklyPlan [("Monday", ["m1"])] none))) "Monday"
      = some ["m1"] ∧
    lookupWP (getData .weeklyPlan
        (some (updateData .weeklyPlan c1FullPlan none))) "Sunday"
      = lookupWP c1FullPlan "Sunday" :=
  ⟨(c1_set_get_roundtrip none).2.2.2.2.2.2.1 [("Monday", ["m1"])] "Monday" ["m1"]
      (by decide),
   (c1_set_get_roundtrip none).2.2.2.2.2.2.2.1 c1FullPlan (by decide) "Sunday"⟩

/-! ## Claim C2 -/

/-- C2: on an empty store `loadData()` returns the hard-coded default
document, whose `weeklyPlan` has exactly the seven weekday keys
Monday..Sunday (in that order) each mapped to an empty list. -/
theorem c2_empty_store_defaults :
    loadData none = defaultData ∧
    defaultData.weeklyPlan.map Prod.fst = DAYS ∧
    defaultData.weeklyPlan.all (fun e => e.2.isEmpty) = true :=
  ⟨rfl, rfl, rfl⟩

/-! ## Claim C4 -/

/-- C4 (counterexample): a JSON array is not a JSON object, yet `importData`
does not reject it — `typeof [] === 'object'` and `[]` is truthy, so the
validation passes and a write of the merged (all-default at section level)
document is performed. -/
theorem c4_import_accepts_array :
    ImportValue.isObj ImportValue.arr = false ∧
    importData ImportValue.arr = some defaultData :=
  ⟨rfl, by decide⟩

/-- C4 (amended): `importData` rejects every non-object, non-array input
(null, booleans, numbers, strings) before any write; arrays as well as
objects are accepted; for every JSON-object input the persisted result is
the input merged over the default document exactly as `load()` merges, so
an import missing the `settings` section yields default settings values. -/
theorem c4_import_reject_and_merge :
    (∀ v : ImportValue, v.isObj = false → v ≠ ImportValue.arr →
      importData v = none) ∧
    (∀ d : StoredDoc, importData (ImportValue.obj d) = some (loadData (some d))) ∧
    (∀ d : StoredDoc, d.settings = none → (importMerge d).settings = defaultSettings) := by
  refine ⟨?_, fun d => rfl, ?_⟩
  · intro v hobj harr
    cases v
    · rfl
    · rfl
    · rfl
    · rfl
    · exact absurd rfl harr
    · simp [ImportValue.isObj] at hobj
  · intro d h
    show mergeSettings (d.settings.getD emptyStoredSettings) = defaultSettings
    rw [h]
    rfl

theorem c4_import_reject_and_merge_witness :
    importData ImportValue.null = none ∧
    importData (ImportValue.obj emptyStoredDoc) = some (loadData (some emptyStoredDoc)) ∧
    (importMerge emptyStoredDoc).settings = defaultSettings :=
  ⟨c4_import_reject_and_merge.1 ImportValue.null rfl (by decide),
   c4_import_reject_and_merge.2.1 emptyStoredDoc,
   c4_import_reject_and_merge.2.2 emptyStoredDoc rfl⟩

/-! ## Claim C8 -/

/-- C8: the upstream file path for a saved meal is
`meals/<lowercased type>/<slug of title>.json`; in particular title
`"Spicy Tofu!"` with type `"Dinner"` yields `meals/dinner/spicy-tofu.json`. -/
theorem c8_save_meal_path :
    savedMealPath "Dinner" "Spicy Tofu!" = "meals/dinner/spicy-tofu.json" ∧
    (∀ mealType mealTitle : String,
      savedMealPath mealType mealTitle
        = "meals/" ++ lowerStr mealType ++ "/" ++ slugify mealTitle) :=
  ⟨by decide, fun _ _ => rfl⟩

/-! ## Claim C10 -/

/-- C10: the records created by `addMeal` / `addTask` / `addShoppingItem`
always have `lastMade = null`, `completed = false` and `lastCompleted =
null`, and `checked = false` respectively, for every caller input — these
fields are assigned after the input spread, so caller-supplied values for
them (which the input records may carry) are overridden. -/
theorem c10_add_overrides_lifecycle (gid now : String) (meals : List Meal)
    (tasks : List Task) (items : List ShoppingItem)
    (mi : MealInput) (ti : TaskInput) (ii : ItemInput) :
    (addMeal gid now meals mi).2.lastMade = none ∧
    (addTask gid now tasks ti).2.completed = false ∧
    (addTask gid now tasks ti).2.lastCompleted = none ∧
    (addShoppingItem gid now items ii).2.checked = false :=
  ⟨rfl, rfl, rfl, rfl⟩

/-! ## Claim C5 -/

/-- A stored document whose weekly plan carries an extra day key and a
duplicated meal id within Monday, as an import file may. -/
def c5BadImport : StoredDoc :=
  { emptyStoredDoc with weeklyPlan := some [("Monday", ["a", "a"]), ("Funday", [])] }

/-- C5 (counterexample): the state reached by a single import (over any
prior state) can have more than the 7 fixed day keys after merge, and a
meal id can appear twice within one day's list — the merge keeps stored
day lists verbatim. -/
theorem c5_import_breaks_plan_invariants :
    importData (ImportValue.obj c5BadImport) = some (importMerge c5BadImport) ∧
    (importMerge c5BadImport).weeklyPlan.map Prod.fst
      = ["Monday", "Tuesday", "Wednesday", "Thursday", "Friday", "Saturday",
         "Sunday", "Funday"] ∧
    lookupWP (importMerge c5BadImport).weeklyPlan "Monday" = some ["a", "a"] :=
  ⟨rfl, by decide, by decide⟩

/-- C5 (amended): after every merge at least the 7 fixed day keys are
present; `addMealToDay` refuses (returns `false` and changes nothing) when
the meal id is already in that day's list, and an `addMealToDay` insertion
never creates a duplicate within the day it touches; however stored or
imported plans are merged verbatim, so extra day keys and in-day duplicate
ids coming from an import survive the merge. -/
theorem c5_plan_invariants :
    (∀ st : Option StoredDoc,
      DAYS.all (fun d => hasKey (loadData st).weeklyPlan d) = true) ∧
    (∀ (plan : WeeklyPlan) (day mealId : String),
      ((lookupWP plan day).getD []).contains mealId = true →
      addMealToDay plan day mealId = (plan, false)) ∧
    (∀ (plan : WeeklyPlan) (day mealId : String),
      ((lookupWP plan day).getD []).Nodup →
      ((lookupWP (addMealToDay plan day mealId).1 day).getD []).Nodup) := by
  refine ⟨?_, ?_, ?_⟩
  · intro st
    cases st with
    | none => decide
    | some d =>
      rw [List.all_eq_true]
      intro day hday
      have hbase : hasKey defaultWeeklyPlan day = true := by
        simp [DAYS] at hday
        rcases hday with rfl | rfl | rfl | rfl | rfl | rfl | rfl <;> decide
      show hasKey (mergeObj defaultWeeklyPlan (d.weeklyPlan.getD [])) day = true
      exact hasKey_mergeObj_of_base _ _ _ hbase
  · intro plan day mealId hmem
    cases h : lookupWP plan day with
    | none => rw [h] at hmem; simp at hmem
    | some l =>
      rw [h] at hmem
      simp only [Option.getD_some] at hmem
      simp only [addMealToDay, h]
      rw [if_pos hmem]
  · intro plan day mealId hnd
    cases h : lookupWP plan day with
    | none =>
      simp [addMealToDay, h, lookupWP_setWP_self]
    | some l =>
      have hl : l.Nodup := by simpa [h] using hnd
      by_cases hmem : l.contains mealId
      · simp only [addMealToDay, h]
        rw [if_pos hmem]
        show ((lookupWP plan day).getD []).Nodup
        simpa [h] using hnd
      · have hni : mealId ∉ l := by simpa [List.contains] using hmem
        simp only [addMealToDay, h]
        rw [if_neg hmem]
        show ((lookupWP (setWP plan day (l ++ [mealId])) day).getD []).Nodup
        rw [lookupWP_setWP_self]
        simp only [Option.getD_some]
        exact ((List.perm_append_singleton mealId l).nodup_iff).mpr
          (List.nodup_cons.mpr ⟨hni, hl⟩)

theorem c5_plan_invariants_witness :
    DAYS.all (fun d => hasKey (loadData none).weeklyPlan d) = true ∧
    addMealToDay [("Monday", ["a"])] "Monday" "a" = ([("Monday", ["a"])], false) ∧
    ((lookupWP (addMealToDay [("Monday", ["a"])] "Monday" "b").1 "Monday").getD []).Nodup :=
  ⟨c5_plan_invariants.1 none,
   c5_plan_invariants.2.1 [("Monday", ["a"])] "Monday" "a" (by decide),
   c5_plan_invariants.2.2 [("Monday", ["a"])] "Monday" "b" (by decide)⟩

/-! ## Claim C9 -/

/-- C9: with an id absent from the relevant collection, `updateMeal`
returns `null`, `toggleTaskComplete` returns `null` and `toggleItemChecked`
returns `false`, and in all three cases no save is performed (first
component `none`), so the persisted document is untouched. -/
theorem c9_not_found_silent (someId now : String) (meals : List Meal)
    (tasks : List Task) (items : List ShoppingItem) (u : MealUpdate)
    (h1 : ∀ m ∈ meals, ¬ m.id = someId)
    (h2 : ∀ t ∈ tasks, ¬ t.id = someId)
    (h3 : ∀ i ∈ items, ¬ i.id = someId) :
    updateMeal meals someId u = (none, none) ∧
    toggleTaskComplete now tasks someId = (none, none) ∧
    toggleItemChecked items someId = (none, false) := by
  have f1 : meals.find? (fun m => m.id == someId) = none :=
    List.find?_eq_none.mpr (fun m hm => by simpa using h1 m hm)
  have f2 : tasks.find? (fun t => t.id == someId) = none :=
    List.find?_eq_none.mpr (fun t ht => by simpa using h2 t ht)
  have f3 : items.find? (fun i => i.id == someId) = none :=
    List.find?_eq_none.mpr (fun i hi => by simpa using h3 i hi)
  exact ⟨by simp [updateMeal, f1], by simp [toggleTaskComplete, f2],
    by simp [toggleItemChecked, f3]⟩

/-- An update object carrying no fields. -/
def c9NoFields : MealUpdate :=
  { id := none, title := none, type := none, dietary := none,
    mainIngredients := none, ingredients := none, favourite := none,
    dateAdded := none, lastMade := none }

theorem c9_not_found_silent_witness :
    updateMeal [] "missing" c9NoFields = (none, none) ∧
    toggleTaskComplete "now" [] "missing" = (none, none) ∧
    toggleItemChecked [] "missing" = (none, false) :=
  c9_not_found_silent "missing" "now" [] [] [] c9NoFields
    (by simp) (by simp) (by simp)

/-! ## Claim C3 -/

theorem find?_first_match (p : α → Bool) (t : α) (pre post : List α)
    (hpre : ∀ a ∈ pre, ¬ p a = true) (ht : p t = true) :
    (pre ++ t :: post).find? p = some t := by
  rw [List.find?_append, List.find?_eq_none.mpr hpre]
  simp [List.find?_cons_of_pos _ ht]

theorem replaceFirstBy_first_match (p : α → Bool) (x t : α) (pre post : List α)
    (hpre : ∀ a ∈ pre, ¬ p a = true) (ht : p t = true) :
    replaceFirstBy p x (pre ++ t :: post) = pre ++ x :: post := by
  induction pre with
  | nil => simp [replaceFirstBy, ht]
  | cons a l ih =>
    have ha : ¬ p a = true := hpre a (List.mem_cons_self a l)
    simp only [List.cons_append, replaceFirstBy, if_neg ha, List.append_eq]
    rw [ih (fun b hb => hpre b (List.mem_cons_of_mem a hb))]

/-- C3: completing (via `toggleTaskComplete`) an incomplete task whose
frequency has a table entry advances `dueDate` by exactly that frequency's
day offset, anchored at the previous due date (the completion time `now`
only lands in `lastCompleted`), and leaves `completed = false` in the same
operation; completing an incomplete `once` task sets `completed = true` and
leaves `dueDate` unchanged. -/
theorem c3_toggle_recurrence (now : String) (pre post : List Task) (t : Task)
    (hpre : ∀ x ∈ pre, ¬ x.id = t.id)
    (hc : t.completed = false) :
    toggleTaskComplete now (pre ++ t :: post) t.id
      = (some (pre ++ completeTask now t :: post), some (completeTask now t)) ∧
    (t.frequency = "daily" →
      (completeTask now t).dueDate = addDays t.dueDate 1
        ∧ (completeTask now t).completed = false) ∧
    (t.frequency = "weekly" →
      (completeTask now t).dueDate = addDays t.dueDate 7
        ∧ (completeTask now t).completed = false) ∧
    (t.frequency = "fortnightly" →
      (completeTask now t).dueDate = addDays t.dueDate 14
        ∧ (completeTask now t).completed = false) ∧
    (t.frequency = "monthly" →
      (completeTask now t).dueDate = addDays t.dueDate 30
        ∧ (completeTask now t).completed = false) ∧
    (t.frequency = "quarterly" →
      (completeTask now t).dueDate = addDays t.dueDate 90
        ∧ (completeTask now t).completed = false) ∧
    (t.frequency = "yearly" →
      (completeTask now t).dueDate = addDays t.dueDate 365
        ∧ (completeTask now t).completed = false) ∧
    (t.frequency = "once" →
      (completeTask now t).completed = true
        ∧ (completeTask now t).dueDate = t.dueDate) := by
  constructor
  · have ht : (t.id == t.id) = true := by simp
    have hpre' : ∀ x ∈ pre, ¬ (x.id == t.id) = true := fun x hx => by
      simpa using hpre x hx
    unfold toggleTaskComplete
    rw [find?_first_match _ t pre post hpre' ht]
    show (some (replaceFirstBy (fun x => x.id == t.id) (completeTask now t)
            (pre ++ t :: post)), some (completeTask now t))
        = (some (pre ++ completeTask now t :: post), some (completeTask now t))
    rw [replaceFirstBy_first_match _ _ t pre post hpre' ht]
  · refine ⟨?_, ?_, ?_, ?_, ?_, ?_, ?_⟩ <;> intro hf <;>
      simp [completeTask, hc, hf, calculateNextDueDate, freqOffset]

/-- The claim's worked example: a weekly task due 2024-01-01. -/
def c3SampleTask : Task :=
  { id := "task-1", name := "Vacuum", frequency := "weekly",
    dueDate := ⟨2024, 1, 1⟩, completed := false, lastCompleted := none,
    createdDate := "2023-12-01" }

theorem c3_toggle_recurrence_witness :
    toggleTaskComplete "2024-01-03" ([] ++ c3SampleTask :: []) c3SampleTask.id
      = (some ([] ++ completeTask "2024-01-03" c3SampleTask :: []),
         some (completeTask "2024-01-03" c3SampleTask)) ∧
    (completeTask "2024-01-03" c3SampleTask).dueDate = ⟨2024, 1, 8⟩ ∧
    (completeTask "2024-01-03" c3SampleTask).completed = false := by
  have h := c3_toggle_recurrence "2024-01-03" [] [] c3SampleTask (by simp) rfl
  refine ⟨h.1, ?_, (h.2.2.1 rfl).2⟩
  rw [(h.2.2.1 rfl).1]
  decide

/-! ## Claim C6 -/

/-- C6: with the filter `{type: 'dinner', dietary: ['vegan']}` (no
ingredient or search term), `filterMeals` returns exactly the meals whose
`type` equals `"dinner"` and whose `dietary` list contains every element of
`["vegan"]`, the two predicates being AND-composed. -/
theorem c6_filter_dinner_vegan (meals : List Meal) :
    filterMeals
        { type := some "dinner", dietary := some ["vegan"],
          ingredient := none, search := none } meals
      = meals.filter (fun m =>
          m.type == "dinner" && ["vegan"].all (fun d => m.dietary.contains d)) := by
  unfold filterMeals
  apply List.filter_congr
  intro m _
  by_cases h1 : m.type = "dinner" <;>
    by_cases h2 : "vegan" ∈ m.dietary <;>
      simp [mealPasses, truthyStr, truthyList, h1, h2, List.contains]

/-! ## Claim C7 -/

/-- One run of `generateFromMealPlan` appends exactly the deduplicated
planned ingredients that have no case-insensitive name match in the list as
read at the start of the run, as fresh items named by the ingredient. -/
theorem generateFromMealPlan_spec (gid : Nat → String) (now : String)
    (plan : WeeklyPlan) (meals : List Meal) (cur : List ShoppingItem) :
    ∃ added : List ShoppingItem,
      generateFromMealPlan gid now plan meals cur
        = (cur ++ added,
           ((dedupFirst [] (collectPlannedIngredients plan meals)).filter (fun ing =>
             !(cur.any (fun item => lowerStr item.name == lowerStr ing)))).length) ∧
      added.map ShoppingItem.name
        = (dedupFirst [] (collectPlannedIngredients plan meals)).filter (fun ing =>
            !(cur.any (fun item => lowerStr item.name == lowerStr ing))) := by
  refine ⟨_, rfl, ?_⟩
  rw [List.map_map, List.enum_eq_enumFrom]
  exact List.enumFrom_map_snd 0 _

/-- C7: with plan and catalog unchanged, a second `generateFromMealPlan`
run adds 0 items and leaves the list unchanged, and the items the first run
appended carry pairwise-distinct names, so each distinct planned ingredient
is added at most once in total across the two runs. -/
theorem c7_generate_idempotent (gid1 gid2 : Nat → String) (now1 now2 : String)
    (plan : WeeklyPlan) (meals : List Meal) (l0 : List ShoppingItem) :
    (generateFromMealPlan gid2 now2 plan meals
        (generateFromMealPlan gid1 now1 plan meals l0).1).2 = 0 ∧
    (generateFromMealPlan gid2 now2 plan meals
        (generateFromMealPlan gid1 now1 plan meals l0).1).1
      = (generateFromMealPlan gid1 now1 plan meals l0).1 ∧
    (((generateFromMealPlan gid1 now1 plan meals l0).1.drop l0.length).map
        ShoppingItem.name).Nodup := by
  obtain ⟨added1, hrun1, hnames1⟩ :=
    generateFromMealPlan_spec gid1 now1 plan meals l0
  obtain ⟨added2, hrun2, hnames2⟩ :=
    generateFromMealPlan_spec gid2 now2 plan meals (l0 ++ added1)
  have hKey : ∀ ing ∈ dedupFirst [] (collectPlannedIngredients plan meals),
      ((l0 ++ added1).any (fun item => lowerStr item.name == lowerStr ing)) = true := by
    intro ing hing
    rw [List.any_append]
    cases h0 : l0.any (fun item => lowerStr item.name == lowerStr ing)
    · have hmem : ing ∈ added1.map ShoppingItem.name := by
        rw [hnames1]
        exact List.mem_filter.mpr ⟨hing, by simp [h0]⟩
      obtain ⟨item, hitem, hname⟩ := List.mem_map.mp hmem
      have : added1.any (fun item => lowerStr item.name == lowerStr ing) = true :=
        List.any_eq_true.mpr ⟨item, hitem, by rw [hname]; simp⟩
      simp [this]
    · simp [h0]
  have hfilter2 :
      (dedupFirst [] (collectPlannedIngredients plan meals)).filter (fun ing =>
        !((l0 ++ added1).any (fun item => lowerStr item.name == lowerStr ing))) = [] :=
    List.filter_eq_nil_iff.mpr (fun ing hing => by simp [hKey ing hing])
  have hadded2 : added2 = [] := by
    have h := hnames2
    rw [hfilter2] at h
    exact List.map_eq_nil_iff.mp h
  refine ⟨?_, ?_, ?_⟩
  · rw [hrun1]
    show (generateFromMealPlan gid2 now2 plan meals (l0 ++ added1)).2 = 0
    rw [hrun2]
    show ((dedupFirst [] (collectPlannedIngredients plan meals)).filter _).length = 0
    rw [hfilter2]
    rfl
  · rw [hrun1]
    show (generateFromMealPlan gid2 now2 plan meals (l0 ++ added1)).1 = l0 ++ added1
    rw [hrun2]
    show (l0 ++ added1) ++ added2 = l0 ++ added1
    rw [hadded2, List.append_nil]
  · rw [hrun1]
    show (((l0 ++ added1).drop l0.length).map ShoppingItem.name).Nodup
    rw [List.drop_left, hnames1]
    exact (dedupFirst_nodup [] _).filter _

end HomeHub
